import Mathlib

/-!
Shallow embedding of the client-side image pipeline of IFG-IP/bulk-rename-resizer
(src/src/App.jsx).  Pixel geometry is carried out in exact rational arithmetic
(JS numbers on these ranges behave like the rationals for every property stated
below); canvas element dimensions are naturals (the WebIDL unsigned-long
coercion truncates the assigned value).
-/

namespace BulkRenameResizer

/-- A decoded pixel buffer: the width/height a raster resolves to. -/
structure Raster where
  width : Nat
  height : Nat
deriving DecidableEq, Repr

/-- App.jsx line 33: `const RESIZE_WIDTH = 600`. -/
def RESIZE_WIDTH : Nat := 600

/-- App.jsx line 34: `const RESIZE_HEIGHT = 400`. -/
def RESIZE_HEIGHT : Nat := 400

/-! ### createThumbnail (App.jsx lines 92-121) -/

/-- Result of `createThumbnail`: the canvas dimensions actually allocated
(naturals, via the unsigned-long coercion `canvas.width = width`), the
JS-number scale values before that coercion, and the encoding parameters of
`canvas.toDataURL('image/jpeg', 0.8)`. -/
structure Thumbnail where
  canvasWidth : Nat
  canvasHeight : Nat
  scaledWidth : ℚ
  scaledHeight : ℚ
  mime : String
  quality : ℚ
deriving DecidableEq

/-- App.jsx lines 100-112: `let { width, height } = img;` then the
two-branch shrink keeping the longer edge at `MAX_DIMENSION = 200`
(in the shrinking branches, `height *= MAX_DIMENSION / width` reads the
original `width` before `width = MAX_DIMENSION` overwrites it, and
symmetrically). -/
def thumbnailScale (w h : Nat) : ℚ × ℚ :=
  if h < w then
    if (200 : ℚ) < (w : ℚ) then ((200 : ℚ), (h : ℚ) * ((200 : ℚ) / (w : ℚ)))
    else ((w : ℚ), (h : ℚ))
  else
    if (200 : ℚ) < (h : ℚ) then ((w : ℚ) * ((200 : ℚ) / (h : ℚ)), (200 : ℚ))
    else ((w : ℚ), (h : ℚ))

/-- App.jsx lines 92-121: the scale computation above, then
`canvas.width = width; canvas.height = height` (truncating unsigned-long
coercion) and `canvas.toDataURL('image/jpeg', 0.8)`. -/
def createThumbnail (img : Raster) : Thumbnail :=
  { canvasWidth := (⌊(thumbnailScale img.width img.height).1⌋).toNat
    canvasHeight := (⌊(thumbnailScale img.width img.height).2⌋).toNat
    scaledWidth := (thumbnailScale img.width img.height).1
    scaledHeight := (thumbnailScale img.width img.height).2
    mime := "image/jpeg"
    quality := 8 / 10 }

/-! ### resizeWithPadding (App.jsx lines 1273-1330) -/

/-- The `while (currentCanvas.width > targetWidth * 2)` staged-halving loop of
`resizeWithPadding` (App.jsx lines 1284-1299), returning the dimensions of the
last intermediate canvas (`Math.floor` halves both dimensions; the loop breaks
before a halving that would undershoot either target dimension). -/
def downscaleLoop (w h tw th : Nat) : Nat × Nat :=
  if tw * 2 < w then
    if w / 2 < tw ∨ h / 2 < th then (w, h)
    else downscaleLoop (w / 2) (h / 2) tw th
  else (w, h)
termination_by w
decreasing_by simp_wf; omega

/-- The same loop as `downscaleLoop`, recording every canvas it holds, the
initial one first; the loop's result is the last element. -/
def downscaleChain (w h tw th : Nat) : List (Nat × Nat) :=
  if tw * 2 < w then
    if w / 2 < tw ∨ h / 2 < th then [(w, h)]
    else (w, h) :: downscaleChain (w / 2) (h / 2) tw th
  else [(w, h)]
termination_by w
decreasing_by simp_wf; omega

/-- The draw rectangle `ctx.drawImage(currentCanvas, x, y, drawWidth, drawHeight)`
of App.jsx line 1324. -/
structure Placement where
  drawWidth : ℚ
  drawHeight : ℚ
  x : ℚ
  y : ℚ
deriving DecidableEq

/-- App.jsx lines 1308-1322: the aspect comparison and the two letterbox
branches.  `w`/`h` are the dimensions of `currentCanvas` after the staged
halving loop. -/
def computePlacement (w h tw th : Nat) : Placement :=
  let imgAspect : ℚ := (w : ℚ) / (h : ℚ)
  let targetAspect : ℚ := (tw : ℚ) / (th : ℚ)
  if targetAspect < imgAspect then
    { drawWidth := (tw : ℚ)
      drawHeight := (tw : ℚ) / imgAspect
      x := 0
      y := ((th : ℚ) - (tw : ℚ) / imgAspect) / 2 }
  else
    { drawWidth := (th : ℚ) * imgAspect
      drawHeight := (th : ℚ)
      x := ((tw : ℚ) - (th : ℚ) * imgAspect) / 2
      y := 0 }

/-- The final canvas produced by `resizeWithPadding`: its allocated size
(lines 1302-1303), the `fillStyle` of the full-canvas `fillRect`
(lines 1305-1306), and the draw rectangle of the source. -/
structure PaddedCanvas where
  width : Nat
  height : Nat
  fillStyle : String
  placement : Placement
deriving DecidableEq

/-- App.jsx lines 1273-1330, for an already-decoded source raster (the
`img.onerror` path is the caller's per-item catch). -/
def resizeWithPadding (img : Raster) (targetWidth targetHeight : Nat) : PaddedCanvas :=
  let c := downscaleLoop img.width img.height targetWidth targetHeight
  { width := targetWidth
    height := targetHeight
    fillStyle := "#FFFFFF"
    placement := computePlacement c.1 c.2 targetWidth targetHeight }

/-- The draw rectangle `resizeWithPadding` produces at the fixed 600x400 target. -/
def finalPlacement (w h : Nat) : Placement :=
  (resizeWithPadding ⟨w, h⟩ RESIZE_WIDTH RESIZE_HEIGHT).placement

/-- The canvas the final scale draws from: the staged-halving loop's result at
the fixed 600x400 target. -/
def stagedSource (w h : Nat) : Nat × Nat :=
  downscaleLoop w h RESIZE_WIDTH RESIZE_HEIGHT

/-! ### Filename synthesis (App.jsx lines 783-788 and 1347-1348) -/

/-- JS `String.prototype.padStart(targetLength, padChar)`: left-pad with
`padChar` up to `targetLength`; a string already at least that long is
returned unchanged (padding is a minimum width, never a truncation). -/
def padStart (s : String) (targetLength : Nat) (padChar : Char) : String :=
  if targetLength ≤ s.length then s
  else String.mk (List.replicate (targetLength - s.length) padChar) ++ s

/-- App.jsx line 1347: `String(i + startSequenceNumber).padStart(2, '0')`
(`toString` on ℤ is JS `String(n)`: decimal digits, minus sign if negative). -/
def seqString (n : ℤ) : String :=
  padStart (toString n) 2 '0'

/-- App.jsx line 1348 (and 787): the output filename template
`industryCode_submissionId_date_sequence.jpg`. -/
def newFilename (industryCode submissionId date sequence : String) : String :=
  industryCode ++ "_" ++ submissionId ++ "_" ++ date ++ "_" ++ sequence ++ ".jpg"

/-! ### Start-sequence parsing (App.jsx line 1340) -/

/-- The digits-prefix part of JS `parseInt(s, 10)`: value of the longest
leading run of decimal digits, `none` (NaN) when there is no digit. -/
def jsParseDigits (cs : List Char) : Option Nat :=
  let ds := cs.takeWhile (fun c => c.isDigit)
  if ds.isEmpty then none
  else some (ds.foldl (fun acc c => acc * 10 + (c.toNat - '0'.toNat)) 0)

/-- JS `parseInt(s, 10)`: skip leading whitespace, optional sign, then the
leading decimal digits; NaN (`none`) when no digit follows. -/
def jsParseInt10 (s : String) : Option ℤ :=
  match s.data.dropWhile (fun c => c.isWhitespace) with
  | '-' :: rest => (jsParseDigits rest).map (fun n => -(n : ℤ))
  | '+' :: rest => (jsParseDigits rest).map (fun n => (n : ℤ))
  | cs => (jsParseDigits cs).map (fun n => (n : ℤ))

/-- App.jsx line 1340: `parseInt(bulkSettings.startSequence, 10) || 1` —
`||` replaces both NaN and `0` (falsy) by `1`. -/
def startSequenceNumberOf (startSequence : String) : ℤ :=
  match jsParseInt10 startSequence with
  | none => 1
  | some n => if n = 0 then 1 else n

/-! ### Files, blobs and HEIC normalization (App.jsx lines 1230-1260) -/

/-- Abstract image bytes.  `content` identifies the byte string; `raster` is
the pixel buffer those bytes decode to (`none` when they cannot be decoded,
the `img.onerror` / `heic2any` rejection path); `encodeQuality` is the
re-encode quality the bytes were produced at (`none` for bytes as uploaded). -/
structure Blob where
  mime : String
  content : Nat
  raster : Option Raster
  encodeQuality : Option ℚ
deriving DecidableEq

/-- A JS `File`: its name, its byte size and its bytes. -/
structure JsFile where
  name : String
  size : Nat
  blob : Blob
deriving DecidableEq

/-- Modelled from the spec: the external `heic2any` library (Format
Normalizer contract, spec section 4.1) — re-encodes a parseable input to the
requested MIME type at the requested quality, preserving the pixel raster,
and fails (`ConversionError`, the rejected promise) when the input cannot be
parsed. -/
def heic2any (blob : Blob) (toType : String) (quality : ℚ) : Option Blob :=
  match blob.raster with
  | none => none
  | some r => some { mime := toType, content := blob.content, raster := some r,
                     encodeQuality := some quality }

/-- App.jsx line 1234: `.heic` / `.heif` detection on the lower-cased name
(`lowerCaseName.endsWith(...)`, expressed on the character sequence). -/
def endsWithHeic (name : String) : Bool :=
  let lowerCaseName := name.data.map Char.toLower
  ".heic".data.isSuffixOf lowerCaseName || ".heif".data.isSuffixOf lowerCaseName

/-- One entry of the `newImages` collection built during ingestion
(App.jsx lines 1240-1249); the random `id` salt is omitted (nondeterministic,
never inspected by the pipeline). -/
structure UploadedImage where
  file : JsFile
  processedBlob : Blob
  thumbnail : Thumbnail
  industryCode : String
  submissionId : String
  date : String
  quality : Nat
deriving DecidableEq

/-- The `try` body of the ingestion loop (App.jsx lines 1231-1249) for one
file: optional HEIC conversion, then thumbnail creation from the (possibly
converted) blob; `none` is the `catch` path (conversion or decode failure). -/
def ingestOne (heic2anyLoaded : Bool) (file : JsFile) : Option UploadedImage :=
  let blob? : Option Blob :=
    if endsWithHeic file.name && heic2anyLoaded then
      heic2any file.blob "image/jpeg" (9 / 10)
    else some file.blob
  blob?.bind fun blob =>
    blob.raster.map fun r =>
      { file := file
        processedBlob := blob
        thumbnail := createThumbnail r
        industryCode := ""
        submissionId := ""
        date := ""
        quality := 9 }

/-- Observable state built by `handleFilesAccepted`: the accumulated
`newImages`, the error banner list (`handleFileErrors` replaces it), and the
loading progress counter. -/
structure LoadState where
  newImages : List UploadedImage
  errors : List String
  progress : Nat
deriving DecidableEq

/-- The `for (const file of files)` loop of App.jsx lines 1230-1255: each
iteration either appends the ingested image or replaces the error banner, and
increments the progress counter either way. -/
def loadLoop (heic2anyLoaded : Bool) : List JsFile → LoadState → LoadState
  | [], st => st
  | file :: rest, st =>
      loadLoop heic2anyLoaded rest
        (match ingestOne heic2anyLoaded file with
         | some img => { st with newImages := st.newImages ++ [img],
                                 progress := st.progress + 1 }
         | none => { st with errors := ["ファイル処理中にエラーが発生しました: " ++ file.name],
                             progress := st.progress + 1 })

/-- App.jsx lines 1205-1260, restricted to the pipeline state (telemetry
counters and screen changes omitted). -/
def handleFilesAccepted (heic2anyLoaded : Bool) (files : List JsFile) : LoadState :=
  loadLoop heic2anyLoaded files { newImages := [], errors := [], progress := 0 }

/-! ### Batch processing (App.jsx lines 1332-1378) -/

/-- One archive entry `zip.file(newFilename, blob)` (App.jsx line 1349): the
entry name and the encoded bytes (canvas, JPEG, `image.quality / 10`).  The
numeric `sequence` of line 1347 is recorded alongside the name it is padded
into. -/
structure ZipEntry where
  filename : String
  sequence : ℤ
  mime : String
  quality : ℚ
  canvas : PaddedCanvas
deriving DecidableEq

/-- Observable state built by `handleProcess`: archive entries in insertion
order, the error banner list, and the processing progress counter. -/
structure ProcessState where
  zipEntries : List ZipEntry
  errors : List String
  progress : Nat
deriving DecidableEq

/-- The `try` body of the processing loop (App.jsx lines 1344-1350) at index
`i`: decode, `resizeWithPadding` at 600x400, `toBlob('image/jpeg',
quality/10)`, filename synthesis; `none` is the `catch` path (the source
raster cannot be decoded). -/
def processOne (startSequenceNumber : ℤ) (i : Nat) (image : UploadedImage) :
    Option ZipEntry :=
  image.processedBlob.raster.map fun r =>
    let canvas := resizeWithPadding r RESIZE_WIDTH RESIZE_HEIGHT
    let sequence : ℤ := (i : ℤ) + startSequenceNumber
    { filename := newFilename image.industryCode image.submissionId image.date
        (seqString sequence)
      sequence := sequence
      mime := "image/jpeg"
      quality := (image.quality : ℚ) / 10
      canvas := canvas }

/-- The `for (let i = 0; i < images.length; i++)` loop of App.jsx lines
1342-1356, with `i` carried explicitly: each iteration either appends an
archive entry or replaces the error banner, and increments progress. -/
def processLoop (startSequenceNumber : ℤ) :
    Nat → List UploadedImage → ProcessState → ProcessState
  | _, [], st => st
  | i, image :: rest, st =>
      processLoop startSequenceNumber (i + 1) rest
        (match processOne startSequenceNumber i image with
         | some entry => { st with zipEntries := st.zipEntries ++ [entry],
                                   progress := st.progress + 1 }
         | none => { st with errors := ["画像処理エラー: " ++ image.file.name],
                             progress := st.progress + 1 })

/-- App.jsx lines 1332-1356 restricted to the pipeline state: parse the start
sequence (line 1340) and run the processing loop from index 0. -/
def handleProcess (images : List UploadedImage) (startSequence : String) :
    ProcessState :=
  processLoop (startSequenceNumberOf startSequence) 0 images
    { zipEntries := [], errors := [], progress := 0 }

/-- The archive entries the processing loop adds when started at index `i`
over the given tail of the collection (the per-index unfolding of the loop of
App.jsx lines 1342-1356: a successful item contributes its entry, a failed
item contributes nothing). -/
def loopEntries (startSequenceNumber : ℤ) : Nat → List UploadedImage → List ZipEntry
  | _, [] => []
  | i, image :: rest =>
      (processOne startSequenceNumber i image).toList ++
        loopEntries startSequenceNumber (i + 1) rest

/-! ### Upload intake (App.jsx lines 425-464) -/

/-- One rejection reason attached by the dropzone. -/
structure FileError where
  code : String
deriving DecidableEq

/-- One rejected file together with its reasons. -/
structure FileRejection where
  file : JsFile
  errors : List FileError
deriving DecidableEq

/-- `maxSize: 10 * 1024 * 1024` (App.jsx line 461). -/
def MAX_FILE_SIZE : Nat := 10 * 1024 * 1024

/-- Modelled from the spec: a file matches the `accept` map of App.jsx lines
456-460 when its MIME type is one of the accepted image types
(`image/jpeg`, `image/png`, `image/heic`/`image/heif` — input contract, spec
section 6) or its name carries one of the map's extensions
(case-insensitive), as the dropzone's attribute matcher does. -/
def dropzoneAccepts (f : JsFile) : Bool :=
  f.blob.mime = "image/jpeg" || f.blob.mime = "image/png" ||
  f.blob.mime = "image/heic" || f.blob.mime = "image/heif" ||
  [".jpg", ".jpeg", ".png", ".heic", ".heif"].any
    (fun ext => ext.data.isSuffixOf (f.name.data.map Char.toLower))

/-- Modelled from the spec: the external `react-dropzone` validator as
configured at App.jsx lines 454-464 — a file too large gets a
`file-too-large` error, a file matching no entry of the `accept` map a
`file-invalid-type` error (input contract, spec section 6). -/
def rejectionErrorsFor (f : JsFile) : List FileError :=
  (if MAX_FILE_SIZE < f.size then [⟨"file-too-large"⟩] else []) ++
  (if dropzoneAccepts f then [] else [⟨"file-invalid-type"⟩])

/-- Modelled from the spec: the dropzone splits a dropped batch into the
accepted files and the rejected files (each with its reasons), preserving
order. -/
def dropzoneSplit (files : List JsFile) : List JsFile × List FileRejection :=
  (files.filter (fun f => (rejectionErrorsFor f).isEmpty),
   (files.filter (fun f => !(rejectionErrorsFor f).isEmpty)).map
     (fun f => { file := f, errors := rejectionErrorsFor f }))

/-- Result of the `onDrop` callback: the error banner contents, and the files
handed to `onFilesAccepted` (`[]` when it is not invoked). -/
structure DropResult where
  errors : List String
  accepted : List JsFile
deriving DecidableEq

/-- App.jsx lines 432-441: the banner message the inner `forEach` pushes for
one rejection reason of the file named `name` (`none` for a code the handler
does not recognise). -/
def rejectionMessage (name : String) (err : FileError) : Option String :=
  if err.code = "file-too-large" then
    some ("ファイルサイズが大きすぎます: " ++ name ++ " (10MBまで)")
  else if err.code = "file-invalid-type" then
    some ("対応していないファイル形式です: " ++ name)
  else none

/-- App.jsx lines 427-441: the `currentErrors` list — the batch-cap message
first, then one message per recognised rejection reason, in rejection order. -/
def currentErrorsOf (acceptedFiles : List JsFile)
    (fileRejections : List FileRejection) : List String :=
  (if 50 < acceptedFiles.length + fileRejections.length then
     ["一度にアップロードできるファイルは50枚までです。"]
   else []) ++
    (fileRejections.map (fun rejection =>
      rejection.errors.filterMap (rejectionMessage rejection.file.name))).flatten

/-- App.jsx lines 426-452: on any error, set the banner and return without
accepting anything; otherwise hand the accepted files on. -/
def onDrop (acceptedFiles : List JsFile) (fileRejections : List FileRejection) :
    DropResult :=
  if (currentErrorsOf acceptedFiles fileRejections).isEmpty then
    { errors := [], accepted := acceptedFiles }
  else { errors := currentErrorsOf acceptedFiles fileRejections, accepted := [] }

/-- A whole drop: dropzone validation followed by the `onDrop` callback. -/
def handleDrop (files : List JsFile) : DropResult :=
  onDrop (dropzoneSplit files).1 (dropzoneSplit files).2

/-! ### Concrete sample data (used only by witness and counterexample theorems) -/

/-- A decodable sample source image with populated naming metadata. -/
def sampleImage (name : String) (w h : Nat) : UploadedImage :=
  { file := { name := name, size := 1024,
              blob := { mime := "image/jpeg", content := 0,
                        raster := some ⟨w, h⟩, encodeQuality := none } }
    processedBlob := { mime := "image/jpeg", content := 0,
                       raster := some ⟨w, h⟩, encodeQuality := none }
    thumbnail := createThumbnail ⟨w, h⟩
    industryCode := "hos"
    submissionId := "12345"
    date := "20240101"
    quality := 9 }

/-- A sample image whose bytes cannot be decoded (fails during processing). -/
def brokenImage (name : String) : UploadedImage :=
  { file := { name := name, size := 1024,
              blob := { mime := "image/jpeg", content := 1,
                        raster := none, encodeQuality := none } }
    processedBlob := { mime := "image/jpeg", content := 1,
                       raster := none, encodeQuality := none }
    thumbnail := createThumbnail ⟨1, 1⟩
    industryCode := "hos"
    submissionId := "12345"
    date := "20240101"
    quality := 9 }

/-- A decodable sample JPEG file of the given byte size. -/
def sampleJpegFile (name : String) (size : Nat) : JsFile :=
  { name := name, size := size,
    blob := { mime := "image/jpeg", content := 0,
              raster := some ⟨1200, 800⟩, encodeQuality := none } }

/-- A decodable sample HEIC file. -/
def sampleHeicFile (name : String) : JsFile :=
  { name := name, size := 2048,
    blob := { mime := "image/heic", content := 2,
              raster := some ⟨1200, 800⟩, encodeQuality := none } }

/-- A HEIC file the conversion library cannot parse. -/
def brokenHeicFile (name : String) : JsFile :=
  { name := name, size := 2048,
    blob := { mime := "image/heic", content := 3,
              raster := none, encodeQuality := none } }

/-- A file of a type the dropzone does not accept. -/
def sampleTextFile (name : String) : JsFile :=
  { name := name, size := 100,
    blob := { mime := "text/plain", content := 5,
              raster := none, encodeQuality := none } }

/-! ## Lemmas about the staged downscale loop -/

theorem downscaleLoop_pos (w h tw th : Nat) :
    0 < w → 0 < h → 0 < tw → 0 < th →
      0 < (downscaleLoop w h tw th).1 ∧ 0 < (downscaleLoop w h tw th).2 := by
  induction w, h, tw, th using downscaleLoop.induct with
  | case1 w h tw th hcond hguard =>
      intro hw hh _ _
      rw [downscaleLoop, if_pos hcond, if_pos hguard]
      exact ⟨hw, hh⟩
  | case2 w h tw th hcond hguard ih =>
      intro _ _ htw hth
      rw [downscaleLoop, if_pos hcond, if_neg hguard]
      exact ih (by omega) (by omega) htw hth
  | case3 w h tw th hcond =>
      intro hw hh _ _
      rw [downscaleLoop, if_neg hcond]
      exact ⟨hw, hh⟩

theorem downscaleLoop_exit (w h tw th : Nat) :
    tw * 2 < (downscaleLoop w h tw th).1 →
      (downscaleLoop w h tw th).1 / 2 < tw ∨ (downscaleLoop w h tw th).2 / 2 < th := by
  induction w, h, tw, th using downscaleLoop.induct with
  | case1 w h tw th hcond hguard =>
      rw [downscaleLoop, if_pos hcond, if_pos hguard]
      intro
      exact hguard
  | case2 w h tw th hcond hguard ih =>
      rw [downscaleLoop, if_pos hcond, if_neg hguard]
      exact ih
  | case3 w h tw th hcond =>
      rw [downscaleLoop, if_neg hcond]
      intro hc
      exact absurd hc hcond

theorem downscaleChain_head (w h tw th : Nat) :
    (downscaleChain w h tw th).head? = some (w, h) := by
  rw [downscaleChain]
  split
  · split <;> simp
  · simp

theorem downscaleChain_ne_nil (w h tw th : Nat) : downscaleChain w h tw th ≠ [] := by
  rw [downscaleChain]
  split
  · split <;> simp
  · simp

theorem downscaleChain_halves (w h tw th : Nat) :
    List.Chain' (fun p q => q.1 = p.1 / 2 ∧ q.2 = p.2 / 2) (downscaleChain w h tw th) := by
  induction w, h, tw, th using downscaleChain.induct with
  | case1 w h tw th hcond hguard =>
      rw [downscaleChain, if_pos hcond, if_pos hguard]
      simp
  | case2 w h tw th hcond hguard ih =>
      rw [downscaleChain, if_pos hcond, if_neg hguard]
      rw [List.chain'_cons']
      refine ⟨?_, ih⟩
      intro b hb
      rw [downscaleChain_head] at hb
      simp only [Option.mem_def, Option.some.injEq] at hb
      subst hb
      exact ⟨rfl, rfl⟩
  | case3 w h tw th hcond =>
      rw [downscaleChain, if_neg hcond]
      simp

theorem downscaleChain_all_ge (w h tw th : Nat) :
    tw ≤ w → th ≤ h → ∀ p ∈ downscaleChain w h tw th, tw ≤ p.1 ∧ th ≤ p.2 := by
  induction w, h, tw, th using downscaleChain.induct with
  | case1 w h tw th hcond hguard =>
      intro hw hh p hp
      rw [downscaleChain, if_pos hcond, if_pos hguard] at hp
      simp only [List.mem_singleton] at hp
      subst hp
      exact ⟨hw, hh⟩
  | case2 w h tw th hcond hguard ih =>
      intro hw hh p hp
      rw [downscaleChain, if_pos hcond, if_neg hguard] at hp
      rcases List.mem_cons.mp hp with rfl | hp
      · exact ⟨hw, hh⟩
      · exact ih (by omega) (by omega) p hp
  | case3 w h tw th hcond =>
      intro hw hh p hp
      rw [downscaleChain, if_neg hcond] at hp
      simp only [List.mem_singleton] at hp
      subst hp
      exact ⟨hw, hh⟩

theorem downscaleChain_tail_ge (w h tw th : Nat) :
    ∀ p ∈ (downscaleChain w h tw th).tail, tw ≤ p.1 ∧ th ≤ p.2 := by
  rw [downscaleChain]
  split
  · split
    · simp
    · next hguard =>
        simp only [List.tail_cons]
        exact downscaleChain_all_ge _ _ _ _ (by omega) (by omega)
  · simp

theorem downscaleChain_getLast (w h tw th : Nat) :
    (downscaleChain w h tw th).getLast? = some (downscaleLoop w h tw th) := by
  induction w, h, tw, th using downscaleChain.induct with
  | case1 w h tw th hcond hguard =>
      rw [downscaleChain, downscaleLoop, if_pos hcond, if_pos hguard,
        if_pos hcond, if_pos hguard]
      rfl
  | case2 w h tw th hcond hguard ih =>
      rw [downscaleChain, downscaleLoop, if_pos hcond, if_neg hguard,
        if_pos hcond, if_neg hguard]
      rw [← ih]
      rcases hc : downscaleChain (w / 2) (h / 2) tw th with _ | ⟨a, l⟩
      · exact absurd hc (downscaleChain_ne_nil _ _ _ _)
      · simp
  | case3 w h tw th hcond =>
      rw [downscaleChain, downscaleLoop, if_neg hcond, if_neg hcond]
      rfl

/-! ## Lemmas about the letterbox placement -/

theorem computePlacement_spec (a b tw th : Nat)
    (ha : 0 < a) (hb : 0 < b) (htw : 0 < tw) (hth : 0 < th) :
    (computePlacement a b tw th).drawWidth ≤ (tw : ℚ) ∧
    (computePlacement a b tw th).drawHeight ≤ (th : ℚ) ∧
    0 ≤ (computePlacement a b tw th).x ∧
    0 ≤ (computePlacement a b tw th).y ∧
    (computePlacement a b tw th).x + (computePlacement a b tw th).drawWidth ≤ (tw : ℚ) ∧
    (computePlacement a b tw th).y + (computePlacement a b tw th).drawHeight ≤ (th : ℚ) ∧
    (computePlacement a b tw th).drawWidth * (b : ℚ)
      = (computePlacement a b tw th).drawHeight * (a : ℚ) ∧
    ((tw : ℚ) / (th : ℚ) < (a : ℚ) / (b : ℚ) →
      (computePlacement a b tw th).drawWidth = (tw : ℚ) ∧
      (computePlacement a b tw th).x = 0 ∧
      (computePlacement a b tw th).y
        = (th : ℚ) - ((computePlacement a b tw th).y
            + (computePlacement a b tw th).drawHeight)) ∧
    (¬((tw : ℚ) / (th : ℚ) < (a : ℚ) / (b : ℚ)) →
      (computePlacement a b tw th).drawHeight = (th : ℚ) ∧
      (computePlacement a b tw th).y = 0 ∧
      (computePlacement a b tw th).x
        = (tw : ℚ) - ((computePlacement a b tw th).x
            + (computePlacement a b tw th).drawWidth)) := by
  have ha' : (0 : ℚ) < (a : ℚ) := by exact_mod_cast ha
  have hb' : (0 : ℚ) < (b : ℚ) := by exact_mod_cast hb
  have htw' : (0 : ℚ) < (tw : ℚ) := by exact_mod_cast htw
  have hth' : (0 : ℚ) < (th : ℚ) := by exact_mod_cast hth
  have hab : (0 : ℚ) < (a : ℚ) / (b : ℚ) := div_pos ha' hb'
  simp only [computePlacement]
  split_ifs with hcase
  · -- image wider than target: full width, vertical centering
    have hlt : (tw : ℚ) * (b : ℚ) < (a : ℚ) * (th : ℚ) :=
      (div_lt_div_iff₀ hth' hb').mp hcase
    have hdh : (tw : ℚ) / ((a : ℚ) / (b : ℚ)) = (tw : ℚ) * (b : ℚ) / (a : ℚ) := by
      rw [div_div_eq_mul_div]
    have hdh_le : (tw : ℚ) / ((a : ℚ) / (b : ℚ)) ≤ (th : ℚ) := by
      rw [hdh, div_le_iff₀ ha']
      nlinarith
    have hdh_pos : 0 ≤ (tw : ℚ) / ((a : ℚ) / (b : ℚ)) := le_of_lt (div_pos htw' hab)
    refine ⟨le_refl _, hdh_le, le_refl _, ?_, ?_, ?_, ?_, ?_, ?_⟩
    · dsimp only
      linarith
    · dsimp only
      linarith
    · dsimp only
      linarith
    · dsimp only
      rw [hdh]
      field_simp
    · intro _
      dsimp only
      refine ⟨rfl, rfl, by ring⟩
    · intro hc
      exact absurd hcase hc
  · -- image not wider than target: full height, horizontal centering
    have hle : (a : ℚ) * (th : ℚ) ≤ (tw : ℚ) * (b : ℚ) := by
      have h1 := not_lt.mp hcase
      have h2 := (div_le_div_iff₀ hb' hth').mp h1
      linarith
    have hdw_le : (th : ℚ) * ((a : ℚ) / (b : ℚ)) ≤ (tw : ℚ) := by
      rw [mul_div_assoc', div_le_iff₀ hb']
      nlinarith
    have hdw_pos : 0 ≤ (th : ℚ) * ((a : ℚ) / (b : ℚ)) :=
      le_of_lt (mul_pos hth' hab)
    refine ⟨hdw_le, le_refl _, ?_, le_refl _, ?_, ?_, ?_, ?_, ?_⟩
    · dsimp only
      linarith
    · dsimp only
      linarith
    · dsimp only
      linarith
    · dsimp only
      field_simp
    · intro hc
      exact absurd hc hcase
    · intro _
      dsimp only
      refine ⟨rfl, rfl, by ring⟩

/-! ## Claim C1 -/

/-- C1, amended: for every decodable source raster, `resizeWithPadding` at the
600x400 target returns a canvas of exactly 600x400 filled with solid white, on
which the (staged-downscaled) source is drawn with the downscaled raster's
aspect ratio preserved, never exceeding the target on either axis and lying
entirely inside the canvas; the branch is decided by the *downscaled* raster's
aspect ratio (not the original source's): when it exceeds the target aspect the
drawn image spans the full width and is vertically centered with exactly equal
top and bottom margins, and otherwise it spans the full height and is
horizontally centered with exactly equal left and right margins. -/
theorem claim1_resizeWithPadding_letterbox (w h : Nat) (hw : 0 < w) (hh : 0 < h) :
    (resizeWithPadding ⟨w, h⟩ RESIZE_WIDTH RESIZE_HEIGHT).width = 600 ∧
    (resizeWithPadding ⟨w, h⟩ RESIZE_WIDTH RESIZE_HEIGHT).height = 400 ∧
    (resizeWithPadding ⟨w, h⟩ RESIZE_WIDTH RESIZE_HEIGHT).fillStyle = "#FFFFFF" ∧
    (finalPlacement w h).drawWidth ≤ 600 ∧
    (finalPlacement w h).drawHeight ≤ 400 ∧
    0 ≤ (finalPlacement w h).x ∧
    0 ≤ (finalPlacement w h).y ∧
    (finalPlacement w h).x + (finalPlacement w h).drawWidth ≤ 600 ∧
    (finalPlacement w h).y + (finalPlacement w h).drawHeight ≤ 400 ∧
    (finalPlacement w h).drawWidth * ((stagedSource w h).2 : ℚ)
      = (finalPlacement w h).drawHeight * ((stagedSource w h).1 : ℚ) ∧
    ((600 : ℚ) / 400 < ((stagedSource w h).1 : ℚ) / ((stagedSource w h).2 : ℚ) →
      (finalPlacement w h).drawWidth = 600 ∧
      (finalPlacement w h).x = 0 ∧
      (finalPlacement w h).y
        = 400 - ((finalPlacement w h).y + (finalPlacement w h).drawHeight)) ∧
    (¬((600 : ℚ) / 400 < ((stagedSource w h).1 : ℚ) / ((stagedSource w h).2 : ℚ)) →
      (finalPlacement w h).drawHeight = 400 ∧
      (finalPlacement w h).y = 0 ∧
      (finalPlacement w h).x
        = 600 - ((finalPlacement w h).x + (finalPlacement w h).drawWidth)) := by
  have hpos := downscaleLoop_pos w h RESIZE_WIDTH RESIZE_HEIGHT hw hh
    (by decide) (by decide)
  have H := computePlacement_spec (downscaleLoop w h RESIZE_WIDTH RESIZE_HEIGHT).1
    (downscaleLoop w h RESIZE_WIDTH RESIZE_HEIGHT).2 RESIZE_WIDTH RESIZE_HEIGHT
    hpos.1 hpos.2 (by decide) (by decide)
  have hfp : finalPlacement w h
      = computePlacement (downscaleLoop w h RESIZE_WIDTH RESIZE_HEIGHT).1
          (downscaleLoop w h RESIZE_WIDTH RESIZE_HEIGHT).2 RESIZE_WIDTH RESIZE_HEIGHT := rfl
  have hss : stagedSource w h = downscaleLoop w h RESIZE_WIDTH RESIZE_HEIGHT := rfl
  refine ⟨rfl, rfl, rfl, ?_⟩
  rw [hfp, hss]
  have hcast : ((RESIZE_WIDTH : ℚ)) = (600 : ℚ) ∧ ((RESIZE_HEIGHT : ℚ)) = (400 : ℚ) := by
    constructor <;> norm_num [RESIZE_WIDTH, RESIZE_HEIGHT]
  rw [hcast.1, hcast.2] at H
  exact H

/-- C1, counterexample to the claim as stated: the 2407x1604 source has
aspect ratio strictly greater than the 600x400 target's, yet the drawn image
does not span the full width (its width is under 600 and its left margin is
positive), because the staged halving loop lands on 601x401, whose aspect
ratio falls on the other side of the target's; the drawn aspect ratio also
differs from the source's. -/
theorem claim1_counterexample :
    (600 : ℚ) / 400 < (2407 : ℚ) / 1604 ∧
    stagedSource 2407 1604 = (601, 401) ∧
    (finalPlacement 2407 1604).drawWidth < 600 ∧
    0 < (finalPlacement 2407 1604).x ∧
    (finalPlacement 2407 1604).drawWidth * 1604
      ≠ (finalPlacement 2407 1604).drawHeight * 2407 := by
  have h1 : downscaleLoop 2407 1604 RESIZE_WIDTH RESIZE_HEIGHT = (601, 401) := by
    simp [downscaleLoop, RESIZE_WIDTH, RESIZE_HEIGHT]
  have h2 : finalPlacement 2407 1604 = computePlacement 601 401 600 400 := by
    have : finalPlacement 2407 1604
        = computePlacement (downscaleLoop 2407 1604 RESIZE_WIDTH RESIZE_HEIGHT).1
            (downscaleLoop 2407 1604 RESIZE_WIDTH RESIZE_HEIGHT).2
            RESIZE_WIDTH RESIZE_HEIGHT := rfl
    rw [this, h1]
    rfl
  refine ⟨by norm_num, by rw [stagedSource]; exact h1, ?_, ?_, ?_⟩ <;>
    rw [h2] <;> norm_num [computePlacement]

/-- C1, witness: the amended theorem applied at the 1200x800 source. -/
theorem claim1_witness :
    0 < 1200 ∧ 0 < 800 ∧
    ((resizeWithPadding ⟨1200, 800⟩ RESIZE_WIDTH RESIZE_HEIGHT).width = 600 ∧
     (resizeWithPadding ⟨1200, 800⟩ RESIZE_WIDTH RESIZE_HEIGHT).height = 400 ∧
     (resizeWithPadding ⟨1200, 800⟩ RESIZE_WIDTH RESIZE_HEIGHT).fillStyle = "#FFFFFF" ∧
     (finalPlacement 1200 800).drawWidth ≤ 600 ∧
     (finalPlacement 1200 800).drawHeight ≤ 400 ∧
     0 ≤ (finalPlacement 1200 800).x ∧
     0 ≤ (finalPlacement 1200 800).y ∧
     (finalPlacement 1200 800).x + (finalPlacement 1200 800).drawWidth ≤ 600 ∧
     (finalPlacement 1200 800).y + (finalPlacement 1200 800).drawHeight ≤ 400 ∧
     (finalPlacement 1200 800).drawWidth * ((stagedSource 1200 800).2 : ℚ)
       = (finalPlacement 1200 800).drawHeight * ((stagedSource 1200 800).1 : ℚ) ∧
     ((600 : ℚ) / 400 < ((stagedSource 1200 800).1 : ℚ) / ((stagedSource 1200 800).2 : ℚ) →
       (finalPlacement 1200 800).drawWidth = 600 ∧
       (finalPlacement 1200 800).x = 0 ∧
       (finalPlacement 1200 800).y
         = 400 - ((finalPlacement 1200 800).y + (finalPlacement 1200 800).drawHeight)) ∧
     (¬((600 : ℚ) / 400 < ((stagedSource 1200 800).1 : ℚ) / ((stagedSource 1200 800).2 : ℚ)) →
       (finalPlacement 1200 800).drawHeight = 400 ∧
       (finalPlacement 1200 800).y = 0 ∧
       (finalPlacement 1200 800).x
         = 600 - ((finalPlacement 1200 800).x + (finalPlacement 1200 800).drawWidth))) :=
  ⟨by decide, by decide,
    claim1_resizeWithPadding_letterbox 1200 800 (by decide) (by decide)⟩

/-! ## Claim C2 -/

/-- C2, amended: for every source raster wider than 2x the 600 target width,
the staged loop applies a sequence of exact 50% (floored) intermediate
downscales, every intermediate canvas keeping width at least 600 and height
at least 400; the loop hands its last canvas to the final scale, and it stops
as soon as the width is at most 1200 or one more halving would undershoot a
target dimension — so the intermediate steps themselves never discard more
than half per pass, but the final scale onto the 600x400 canvas may (the
original claim's "no single resize step in the whole pipeline" fails, see the
counterexample). -/
theorem claim2_staged_downscale (w h : Nat) (_hw : RESIZE_WIDTH * 2 < w) :
    (downscaleChain w h RESIZE_WIDTH RESIZE_HEIGHT).head? = some (w, h) ∧
    List.Chain' (fun p q => q.1 = p.1 / 2 ∧ q.2 = p.2 / 2)
      (downscaleChain w h RESIZE_WIDTH RESIZE_HEIGHT) ∧
    (∀ p ∈ (downscaleChain w h RESIZE_WIDTH RESIZE_HEIGHT).tail,
        RESIZE_WIDTH ≤ p.1 ∧ RESIZE_HEIGHT ≤ p.2) ∧
    (downscaleChain w h RESIZE_WIDTH RESIZE_HEIGHT).getLast? = some (stagedSource w h) ∧
    (RESIZE_WIDTH * 2 < (stagedSource w h).1 →
       (stagedSource w h).1 / 2 < RESIZE_WIDTH ∨
       (stagedSource w h).2 / 2 < RESIZE_HEIGHT) :=
  ⟨downscaleChain_head w h RESIZE_WIDTH RESIZE_HEIGHT,
   downscaleChain_halves w h RESIZE_WIDTH RESIZE_HEIGHT,
   downscaleChain_tail_ge w h RESIZE_WIDTH RESIZE_HEIGHT,
   downscaleChain_getLast w h RESIZE_WIDTH RESIZE_HEIGHT,
   downscaleLoop_exit w h RESIZE_WIDTH RESIZE_HEIGHT⟩

/-- C2, counterexample to the claim as stated: the 1300x500 source is wider
than 2x the 600 target width, yet no intermediate downscale happens at all
(halving would undershoot the 400 target height), and the final scale onto
the 600x400 canvas then reduces the width from 1300 to 600 — more than half
in a single pass. -/
theorem claim2_counterexample :
    RESIZE_WIDTH * 2 < 1300 ∧
    downscaleChain 1300 500 RESIZE_WIDTH RESIZE_HEIGHT = [(1300, 500)] ∧
    2 * (finalPlacement 1300 500).drawWidth < (1300 : ℚ) := by
  refine ⟨by decide, ?_, ?_⟩
  · simp [downscaleChain, RESIZE_WIDTH, RESIZE_HEIGHT]
  · have h1 : finalPlacement 1300 500 = computePlacement 1300 500 600 400 := by
      have h0 : downscaleLoop 1300 500 RESIZE_WIDTH RESIZE_HEIGHT = (1300, 500) := by
        simp [downscaleLoop, RESIZE_WIDTH, RESIZE_HEIGHT]
      have h2 : finalPlacement 1300 500
          = computePlacement (downscaleLoop 1300 500 RESIZE_WIDTH RESIZE_HEIGHT).1
              (downscaleLoop 1300 500 RESIZE_WIDTH RESIZE_HEIGHT).2
              RESIZE_WIDTH RESIZE_HEIGHT := rfl
      rw [h2, h0]
      rfl
    rw [h1]
    norm_num [computePlacement]

/-- C2, witness: the amended theorem applied at the 2500x1700 source, whose
staged chain is 2500x1700, 1250x850, 625x425. -/
theorem claim2_witness :
    RESIZE_WIDTH * 2 < 2500 ∧
    ((downscaleChain 2500 1700 RESIZE_WIDTH RESIZE_HEIGHT).head? = some (2500, 1700) ∧
     List.Chain' (fun p q => q.1 = p.1 / 2 ∧ q.2 = p.2 / 2)
       (downscaleChain 2500 1700 RESIZE_WIDTH RESIZE_HEIGHT) ∧
     (∀ p ∈ (downscaleChain 2500 1700 RESIZE_WIDTH RESIZE_HEIGHT).tail,
         RESIZE_WIDTH ≤ p.1 ∧ RESIZE_HEIGHT ≤ p.2) ∧
     (downscaleChain 2500 1700 RESIZE_WIDTH RESIZE_HEIGHT).getLast?
       = some (stagedSource 2500 1700) ∧
     (RESIZE_WIDTH * 2 < (stagedSource 2500 1700).1 →
        (stagedSource 2500 1700).1 / 2 < RESIZE_WIDTH ∨
        (stagedSource 2500 1700).2 / 2 < RESIZE_HEIGHT)) :=
  ⟨by decide, claim2_staged_downscale 2500 1700 (by decide)⟩

/-! ## Lemmas about the processing loop -/

theorem processLoop_progress (startSequenceNumber : ℤ) (l : List UploadedImage) :
    ∀ (i : Nat) (st : ProcessState),
      (processLoop startSequenceNumber i l st).progress = st.progress + l.length := by
  induction l with
  | nil =>
      intro i st
      simp [processLoop]
  | cons image rest ih =>
      intro i st
      simp only [processLoop]
      cases hp : processOne startSequenceNumber i image with
      | some e =>
          simp only [hp]
          rw [ih]
          simp only [List.length_cons]
          omega
      | none =>
          simp only [hp]
          rw [ih]
          simp only [List.length_cons]
          omega

theorem processLoop_entries (startSequenceNumber : ℤ) (l : List UploadedImage) :
    ∀ (i : Nat) (st : ProcessState),
      (processLoop startSequenceNumber i l st).zipEntries
        = st.zipEntries ++ loopEntries startSequenceNumber i l := by
  induction l with
  | nil =>
      intro i st
      simp [processLoop, loopEntries]
  | cons image rest ih =>
      intro i st
      simp only [processLoop, loopEntries]
      cases hp : processOne startSequenceNumber i image with
      | some e =>
          simp only [hp, Option.toList_some]
          rw [ih]
          simp
      | none =>
          simp only [hp, Option.toList_none]
          rw [ih]
          simp

theorem handleProcess_entries (images : List UploadedImage) (startSequence : String) :
    (handleProcess images startSequence).zipEntries
      = loopEntries (startSequenceNumberOf startSequence) 0 images := by
  rw [handleProcess, processLoop_entries]
  rfl

theorem handleProcess_progress (images : List UploadedImage) (startSequence : String) :
    (handleProcess images startSequence).progress = images.length := by
  rw [handleProcess, processLoop_progress]
  simp

theorem processOne_isSome (startSequenceNumber : ℤ) (i : Nat) (image : UploadedImage) :
    (processOne startSequenceNumber i image).isSome
      = image.processedBlob.raster.isSome := by
  cases hr : image.processedBlob.raster <;> simp [processOne, hr]

theorem loopEntries_length (startSequenceNumber : ℤ) (l : List UploadedImage) :
    ∀ i, (loopEntries startSequenceNumber i l).length
      = (l.filter (fun img => img.processedBlob.raster.isSome)).length := by
  induction l with
  | nil =>
      intro i
      simp [loopEntries]
  | cons image rest ih =>
      intro i
      cases hr : image.processedBlob.raster <;>
        simp [loopEntries, processOne, hr, List.filter_cons, ih]

theorem filter_some_none_length (l : List UploadedImage) :
    (l.filter (fun img => img.processedBlob.raster.isSome)).length +
      (l.filter (fun img => img.processedBlob.raster.isNone)).length = l.length := by
  induction l with
  | nil => simp
  | cons image rest ih =>
      cases hr : image.processedBlob.raster <;>
        simp [List.filter_cons, hr] <;> omega

theorem loopEntries_map_seq (startSequenceNumber : ℤ) (l : List UploadedImage) :
    ∀ i, (∀ img ∈ l, img.processedBlob.raster.isSome) →
      (loopEntries startSequenceNumber i l).map ZipEntry.sequence
        = (List.range l.length).map
            (fun k => ((i + k : Nat) : ℤ) + startSequenceNumber) := by
  induction l with
  | nil =>
      intro i _
      simp [loopEntries]
  | cons image rest ih =>
      intro i hall
      obtain ⟨r, hr⟩ := Option.isSome_iff_exists.mp
        (hall image (List.mem_cons_self image rest))
      have hrec := ih (i + 1) (fun img hm => hall img (List.mem_cons_of_mem image hm))
      simp only [loopEntries, processOne, hr, Option.map_some', Option.toList_some,
        List.singleton_append, List.map_cons, hrec, List.length_cons]
      rw [List.range_succ_eq_map]
      simp only [List.map_cons, List.map_map, List.cons.injEq]
      constructor
      · push_cast
        ring
      · apply List.map_congr_left
        intro k _
        simp only [Function.comp_apply, Nat.succ_eq_add_one]
        push_cast
        ring

/-! ## Claim C3 -/

/-- C3: in a batch of N items where some items fail during resize or encode,
each failing item is excluded from the archive (the archive holds exactly N
minus the number of failed items entries), every failure is caught so the
loop continues (the loop is total and processes every item), and the
progress counter increments once per item, reaching N. -/
theorem claim3_failed_items_excluded (images : List UploadedImage) (startSequence : String) :
    (handleProcess images startSequence).progress = images.length ∧
    (handleProcess images startSequence).zipEntries.length
      = (images.filter (fun img => img.processedBlob.raster.isSome)).length ∧
    (handleProcess images startSequence).zipEntries.length
      = images.length
        - (images.filter (fun img => img.processedBlob.raster.isNone)).length := by
  have hlen := loopEntries_length (startSequenceNumberOf startSequence) images 0
  have hsum := filter_some_none_length images
  refine ⟨handleProcess_progress images startSequence, ?_, ?_⟩
  · rw [handleProcess_entries, hlen]
  · rw [handleProcess_entries, hlen]
    omega

theorem handleProcess_map_seq (images : List UploadedImage) (startSequence : String)
    (hall : ∀ img ∈ images, img.processedBlob.raster.isSome) :
    (handleProcess images startSequence).zipEntries.map ZipEntry.sequence
      = (List.range images.length).map
          (fun k : Nat => (k : ℤ) + startSequenceNumberOf startSequence) := by
  have h := loopEntries_map_seq (startSequenceNumberOf startSequence) images 0 hall
  have h0 : (fun k => ((0 + k : Nat) : ℤ) + startSequenceNumberOf startSequence)
      = (fun k : Nat => (k : ℤ) + startSequenceNumberOf startSequence) := by
    funext k
    push_cast
    ring
  rw [h0] at h
  rw [handleProcess_entries]
  exact h

/-! ## Claim C4 -/

/-- C4: for every batch processed with start sequence string `startSequence`
and no per-item failures, the k-th archive entry (in processing order, the
order of the collection) carries sequence number `k + offset`, so the
assigned numbers are exactly offset, offset+1, ..., offset+N-1 with no
duplicates and no gaps. -/
theorem claim4_sequence_numbers (images : List UploadedImage) (startSequence : String)
    (hall : ∀ img ∈ images, img.processedBlob.raster.isSome) :
    (handleProcess images startSequence).zipEntries.map ZipEntry.sequence
      = (List.range images.length).map
          (fun k : Nat => (k : ℤ) + startSequenceNumberOf startSequence) ∧
    (handleProcess images startSequence).zipEntries.length = images.length := by
  have h := handleProcess_map_seq images startSequence hall
  refine ⟨h, ?_⟩
  have := congrArg List.length h
  simpa using this

/-- C4, witness: three decodable items processed with start sequence "5"
get the sequence numbers 5, 6, 7 in collection order. -/
theorem claim4_witness :
    (∀ img ∈ [sampleImage "a.jpg" 1200 800, sampleImage "b.jpg" 900 900,
              sampleImage "c.jpg" 300 500],
       img.processedBlob.raster.isSome) ∧
    ((handleProcess [sampleImage "a.jpg" 1200 800, sampleImage "b.jpg" 900 900,
                     sampleImage "c.jpg" 300 500] "5").zipEntries.map ZipEntry.sequence
       = (List.range ([sampleImage "a.jpg" 1200 800, sampleImage "b.jpg" 900 900,
                       sampleImage "c.jpg" 300 500]).length).map
           (fun k : Nat => (k : ℤ) + startSequenceNumberOf "5") ∧
     (handleProcess [sampleImage "a.jpg" 1200 800, sampleImage "b.jpg" 900 900,
                     sampleImage "c.jpg" 300 500] "5").zipEntries.length
       = ([sampleImage "a.jpg" 1200 800, sampleImage "b.jpg" 900 900,
           sampleImage "c.jpg" 300 500]).length) :=
  ⟨by decide,
   claim4_sequence_numbers
     [sampleImage "a.jpg" 1200 800, sampleImage "b.jpg" 900 900,
      sampleImage "c.jpg" 300 500] "5" (by decide)⟩

/-! ## Claim C9 -/

theorem mem_loopEntries_seq (startSequenceNumber : ℤ) (l : List UploadedImage) :
    ∀ (i : Nat) (n : ℤ),
      (n ∈ (loopEntries startSequenceNumber i l).map ZipEntry.sequence ↔
        ∃ k img, l[k]? = some img ∧ img.processedBlob.raster.isSome ∧
          n = ((i + k : Nat) : ℤ) + startSequenceNumber) := by
  induction l with
  | nil =>
      intro i n
      simp [loopEntries]
  | cons image rest ih =>
      intro i n
      cases hr : image.processedBlob.raster with
      | none =>
          simp only [loopEntries, processOne, hr, Option.map_none', Option.toList_none,
            List.nil_append]
          rw [ih]
          constructor
          · rintro ⟨k, img, hk, hs, hn⟩
            refine ⟨k + 1, img, by simpa using hk, hs, ?_⟩
            push_cast at hn ⊢
            omega
          · rintro ⟨k, img, hk, hs, hn⟩
            cases k with
            | zero =>
                simp only [List.getElem?_cons_zero, Option.some.injEq] at hk
                subst hk
                rw [hr] at hs
                simp at hs
            | succ k =>
                refine ⟨k, img, by simpa using hk, hs, ?_⟩
                push_cast at hn ⊢
                omega
      | some r =>
          simp only [loopEntries, processOne, hr, Option.map_some', Option.toList_some,
            List.singleton_append, List.map_cons]
          rw [List.mem_cons, ih]
          constructor
          · rintro (rfl | ⟨k, img, hk, hs, hn⟩)
            · refine ⟨0, image, by simp, by rw [hr]; rfl, ?_⟩
              push_cast
              ring
            · refine ⟨k + 1, img, by simpa using hk, hs, ?_⟩
              push_cast at hn ⊢
              omega
          · rintro ⟨k, img, hk, hs, hn⟩
            cases k with
            | zero =>
                left
                simp only [List.getElem?_cons_zero, Option.some.injEq] at hk
                push_cast at hn
                simpa using hn
            | succ k =>
                right
                refine ⟨k, img, by simpa using hk, hs, ?_⟩
                push_cast at hn ⊢
                omega

/-- C9: sequence numbers depend only on the item's index and the start
offset; when the item at index `i` fails, every other successful item at
index `j` still contributes sequence number `j + offset` to the archive,
while `i + offset` is absent — a gap, not a renumbering. -/
theorem claim9_sequence_gaps (images : List UploadedImage) (startSequence : String)
    (i : Nat) (img : UploadedImage) (hi : images[i]? = some img)
    (hfail : img.processedBlob.raster = none) :
    (∀ (j : Nat) (imgj : UploadedImage),
       images[j]? = some imgj → imgj.processedBlob.raster.isSome →
       ((j : ℤ) + startSequenceNumberOf startSequence)
         ∈ (handleProcess images startSequence).zipEntries.map ZipEntry.sequence) ∧
    ((i : ℤ) + startSequenceNumberOf startSequence)
       ∉ (handleProcess images startSequence).zipEntries.map ZipEntry.sequence := by
  constructor
  · intro j imgj hj hs
    rw [handleProcess_entries, mem_loopEntries_seq]
    refine ⟨j, imgj, hj, hs, ?_⟩
    push_cast
    ring
  · rw [handleProcess_entries, mem_loopEntries_seq]
    rintro ⟨k, imgk, hk, hs, hn⟩
    have hki : k = i := by
      push_cast at hn
      omega
    subst hki
    rw [hi] at hk
    cases hk
    rw [hfail] at hs
    simp at hs

/-- C9, witness: in a three-item batch whose middle item fails, the archive
sequence numbers keep 0+1 and 2+1 and lack 1+1. -/
theorem claim9_witness :
    (∀ (j : Nat) (imgj : UploadedImage),
       ([sampleImage "a.jpg" 1200 800, brokenImage "b.jpg",
         sampleImage "c.jpg" 300 500])[j]? = some imgj →
       imgj.processedBlob.raster.isSome →
       ((j : ℤ) + startSequenceNumberOf "1")
         ∈ (handleProcess [sampleImage "a.jpg" 1200 800, brokenImage "b.jpg",
              sampleImage "c.jpg" 300 500] "1").zipEntries.map ZipEntry.sequence) ∧
    (((1 : Nat) : ℤ) + startSequenceNumberOf "1")
       ∉ (handleProcess [sampleImage "a.jpg" 1200 800, brokenImage "b.jpg",
            sampleImage "c.jpg" 300 500] "1").zipEntries.map ZipEntry.sequence :=
  claim9_sequence_gaps
    [sampleImage "a.jpg" 1200 800, brokenImage "b.jpg", sampleImage "c.jpg" 300 500]
    "1" 1 (brokenImage "b.jpg") rfl rfl

/-! ## Claim C5 -/

/-- C5: the padded sequence component is the decimal rendering of the
sequence number left-zero-padded to a minimum width of 2 with no truncation:
its length is `max 2` the plain rendering's length and the plain rendering is
kept intact as a suffix after a run of `'0'`; in particular 7 renders as "07"
and 123 as "123". -/
theorem claim5_sequence_padding :
    seqString 7 = "07" ∧ seqString 123 = "123" ∧
    ∀ n : ℤ, (seqString n).length = max 2 (toString n).length ∧
      ∃ k, seqString n = String.mk (List.replicate k '0') ++ toString n := by
  refine ⟨by decide, by decide, ?_⟩
  intro n
  unfold seqString padStart
  by_cases hlen : 2 ≤ (toString n).length
  · rw [if_pos hlen]
    exact ⟨by omega, 0, by simp⟩
  · rw [if_neg hlen]
    constructor
    · simp [String.length_append]
      omega
    · exact ⟨2 - (toString n).length, rfl⟩

/-! ## Claim C10 -/

/-- C10: the effective start offset is `parseInt(startSequence, 10) || 1`, so
an empty, non-numeric, or zero-valued start-sequence string silently becomes
offset 1; in particular a user-entered "0" yields a first padded sequence of
"01", not "00". -/
theorem claim10_start_sequence_fallback :
    startSequenceNumberOf "" = 1 ∧
    startSequenceNumberOf "0" = 1 ∧
    (∀ s, jsParseInt10 s = none → startSequenceNumberOf s = 1) ∧
    (∀ s, jsParseInt10 s = some 0 → startSequenceNumberOf s = 1) ∧
    (handleProcess [sampleImage "a.jpg" 1200 800] "0").zipEntries.map ZipEntry.sequence
      = [1] ∧
    seqString 1 = "01" ∧
    seqString 0 = "00" := by
  refine ⟨by decide, by decide, ?_, ?_, ?_, by decide, by decide⟩
  · intro s hs
    rw [startSequenceNumberOf, hs]
  · intro s hs
    rw [startSequenceNumberOf, hs]
    rfl
  · have h := handleProcess_map_seq [sampleImage "a.jpg" 1200 800] "0" (by decide)
    rw [h]
    decide

/-- C10, witness: the fallback applied to the non-numeric string "xyz" and to
"0.5" (which `parseInt` reads as 0). -/
theorem claim10_witness :
    startSequenceNumberOf "xyz" = 1 ∧ startSequenceNumberOf "0.5" = 1 :=
  ⟨claim10_start_sequence_fallback.2.2.1 "xyz" (by decide),
   claim10_start_sequence_fallback.2.2.2.1 "0.5" (by decide)⟩

/-! ## Claim C7 -/

theorem thumbnailScale_spec (w h : Nat) (hw : 0 < w) (hh : 0 < h) :
    (thumbnailScale w h).1 ≤ 200 ∧ (thumbnailScale w h).2 ≤ 200 ∧
    0 < (thumbnailScale w h).1 ∧ 0 < (thumbnailScale w h).2 ∧
    (thumbnailScale w h).1 * (h : ℚ) = (thumbnailScale w h).2 * (w : ℚ) ∧
    (w ≤ 200 → h ≤ 200 → thumbnailScale w h = ((w : ℚ), (h : ℚ))) := by
  have hw' : (0 : ℚ) < (w : ℚ) := by exact_mod_cast hw
  have hh' : (0 : ℚ) < (h : ℚ) := by exact_mod_cast hh
  rw [thumbnailScale]
  split_ifs with hwh hmax hmax
  · -- landscape, width above the cap
    have hhw : (h : ℚ) < (w : ℚ) := by exact_mod_cast hwh
    refine ⟨by norm_num, ?_, by norm_num, ?_, ?_, ?_⟩
    · dsimp only
      rw [mul_div_assoc', div_le_iff₀ hw']
      nlinarith
    · dsimp only
      positivity
    · dsimp only
      field_simp
      ring
    · intro hw200 _
      exfalso
      have : (w : ℚ) ≤ 200 := by exact_mod_cast hw200
      linarith
  · -- landscape, width already within the cap
    have hhw : (h : ℚ) < (w : ℚ) := by exact_mod_cast hwh
    have hwle : (w : ℚ) ≤ 200 := not_lt.mp hmax
    exact ⟨hwle, by dsimp only; linarith, hw', hh', mul_comm _ _, fun _ _ => rfl⟩
  · -- portrait or square, height above the cap
    have hwh' : (w : ℚ) ≤ (h : ℚ) := by exact_mod_cast not_lt.mp hwh
    refine ⟨?_, by norm_num, ?_, by norm_num, ?_, ?_⟩
    · dsimp only
      rw [mul_div_assoc', div_le_iff₀ hh']
      nlinarith
    · dsimp only
      positivity
    · dsimp only
      field_simp
      ring
    · intro _ hh200
      exfalso
      have : (h : ℚ) ≤ 200 := by exact_mod_cast hh200
      linarith
  · -- portrait or square, already within the cap
    have hwh' : (w : ℚ) ≤ (h : ℚ) := by exact_mod_cast not_lt.mp hwh
    have hhle : (h : ℚ) ≤ 200 := not_lt.mp hmax
    exact ⟨by dsimp only; linarith, hhle, hw', hh', mul_comm _ _, fun _ _ => rfl⟩

/-- C7, amended: for every decodable w x h source, the thumbnail is JPEG at
quality 0.8, its scale values (before the canvas-dimension coercion) are
positive, keep the longer edge at most 200 and preserve the source aspect
ratio exactly; the allocated canvas edges (the truncations of those values)
are each at most 200, and a source already within 200x200 keeps its exact
dimensions.  The original claim's "neither edge rounded down to zero" is
dropped: the truncation can produce a zero edge (see the counterexample). -/
theorem claim7_thumbnail (w h : Nat) (hw : 0 < w) (hh : 0 < h) :
    (createThumbnail ⟨w, h⟩).mime = "image/jpeg" ∧
    (createThumbnail ⟨w, h⟩).quality = 8 / 10 ∧
    (createThumbnail ⟨w, h⟩).scaledWidth ≤ 200 ∧
    (createThumbnail ⟨w, h⟩).scaledHeight ≤ 200 ∧
    0 < (createThumbnail ⟨w, h⟩).scaledWidth ∧
    0 < (createThumbnail ⟨w, h⟩).scaledHeight ∧
    (createThumbnail ⟨w, h⟩).scaledWidth * (h : ℚ)
      = (createThumbnail ⟨w, h⟩).scaledHeight * (w : ℚ) ∧
    (createThumbnail ⟨w, h⟩).canvasWidth ≤ 200 ∧
    (createThumbnail ⟨w, h⟩).canvasHeight ≤ 200 ∧
    (w ≤ 200 → h ≤ 200 →
      (createThumbnail ⟨w, h⟩).canvasWidth = w ∧
      (createThumbnail ⟨w, h⟩).canvasHeight = h) := by
  obtain ⟨h1, h2, h3, h4, h5, h6⟩ := thumbnailScale_spec w h hw hh
  have hbound : ∀ q : ℚ, q ≤ 200 → (⌊q⌋).toNat ≤ 200 := by
    intro q hq
    have hf : ⌊q⌋ ≤ (200 : ℤ) := by
      have := Int.floor_le_floor hq
      simpa using this
    omega
  refine ⟨rfl, rfl, h1, h2, h3, h4, h5, hbound _ h1, hbound _ h2, ?_⟩
  intro hw200 hh200
  have hsc := h6 hw200 hh200
  constructor
  · show (⌊(thumbnailScale w h).1⌋).toNat = w
    rw [hsc]
    simp
  · show (⌊(thumbnailScale w h).2⌋).toNat = h
    rw [hsc]
    simp

/-- C7, counterexample to the claim as stated: a 1000x1 source scales to
200 x 0.2, and the canvas-dimension truncation makes the thumbnail's height
edge 0 — the claim's "neither edge rounded down to zero" fails. -/
theorem claim7_counterexample :
    (createThumbnail ⟨1000, 1⟩).canvasHeight = 0 ∧
    (createThumbnail ⟨1000, 1⟩).scaledHeight = 1 / 5 := by
  have hsc : thumbnailScale 1000 1 = ((200 : ℚ), 1 / 5) := by
    rw [thumbnailScale]
    norm_num
  constructor
  · show (⌊(thumbnailScale 1000 1).2⌋).toNat = 0
    rw [hsc]
    norm_num
  · show (thumbnailScale 1000 1).2 = 1 / 5
    rw [hsc]

/-- C7, witness: the amended theorem applied at a 300x200 source, and its
keep-original-dimensions part applied at a 100x50 source. -/
theorem claim7_witness :
    0 < 300 ∧ 0 < 200 ∧
    ((createThumbnail ⟨300, 200⟩).mime = "image/jpeg" ∧
     (createThumbnail ⟨300, 200⟩).quality = 8 / 10 ∧
     (createThumbnail ⟨300, 200⟩).scaledWidth ≤ 200 ∧
     (createThumbnail ⟨300, 200⟩).scaledHeight ≤ 200 ∧
     0 < (createThumbnail ⟨300, 200⟩).scaledWidth ∧
     0 < (createThumbnail ⟨300, 200⟩).scaledHeight ∧
     (createThumbnail ⟨300, 200⟩).scaledWidth * ((200 : Nat) : ℚ)
       = (createThumbnail ⟨300, 200⟩).scaledHeight * ((300 : Nat) : ℚ) ∧
     (createThumbnail ⟨300, 200⟩).canvasWidth ≤ 200 ∧
     (createThumbnail ⟨300, 200⟩).canvasHeight ≤ 200 ∧
     (300 ≤ 200 → 200 ≤ 200 →
       (createThumbnail ⟨300, 200⟩).canvasWidth = 300 ∧
       (createThumbnail ⟨300, 200⟩).canvasHeight = 200)) ∧
    ((createThumbnail ⟨100, 50⟩).canvasWidth = 100 ∧
     (createThumbnail ⟨100, 50⟩).canvasHeight = 50) := by
  have H := claim7_thumbnail 300 200 (by decide) (by decide)
  have H2 := claim7_thumbnail 100 50 (by decide) (by decide)
  exact ⟨by decide, by decide, H,
    H2.2.2.2.2.2.2.2.2.2 (by decide) (by decide)⟩

/-! ## Claim C8 -/

theorem loadLoop_progress (heic2anyLoaded : Bool) (l : List JsFile) :
    ∀ st : LoadState,
      (loadLoop heic2anyLoaded l st).progress = st.progress + l.length := by
  induction l with
  | nil =>
      intro st
      simp [loadLoop]
  | cons file rest ih =>
      intro st
      simp only [loadLoop]
      cases hp : ingestOne heic2anyLoaded file with
      | some img =>
          simp only [hp]
          rw [ih]
          simp only [List.length_cons]
          omega
      | none =>
          simp only [hp]
          rw [ih]
          simp only [List.length_cons]
          omega

theorem loadLoop_newImages (heic2anyLoaded : Bool) (l : List JsFile) :
    ∀ st : LoadState,
      (loadLoop heic2anyLoaded l st).newImages
        = st.newImages ++ l.filterMap (ingestOne heic2anyLoaded) := by
  induction l with
  | nil =>
      intro st
      simp [loadLoop]
  | cons file rest ih =>
      intro st
      simp only [loadLoop]
      cases hp : ingestOne heic2anyLoaded file with
      | some img =>
          simp only [hp]
          rw [ih]
          simp [List.filterMap_cons, hp]
      | none =>
          simp only [hp]
          rw [ih]
          simp [List.filterMap_cons, hp]

/-- C8: with the conversion library loaded (the wizard only leaves its
`initializing` screen once all three CDN scripts are loaded, App.jsx line
1183), ingestion converts every accepted `.heic`/`.heif`-named file to bytes
of MIME type image/jpeg re-encoded at quality 0.9 while preserving its
raster, passes every other file's bytes through unchanged, drops exactly the
items whose bytes cannot be decoded (failures are caught per item, so the
remaining items are still ingested), and advances the progress counter once
per file regardless of the outcome. -/
theorem claim8_heic_normalization (files : List JsFile) :
    (handleFilesAccepted true files).progress = files.length ∧
    (handleFilesAccepted true files).newImages = files.filterMap (ingestOne true) ∧
    (∀ f : JsFile, endsWithHeic f.name = true →
       ∀ img : UploadedImage, ingestOne true f = some img →
         img.processedBlob.mime = "image/jpeg" ∧
         img.processedBlob.encodeQuality = some (9 / 10) ∧
         img.processedBlob.raster = f.blob.raster) ∧
    (∀ f : JsFile, endsWithHeic f.name = false →
       ∀ img : UploadedImage, ingestOne true f = some img →
         img.processedBlob = f.blob) ∧
    (∀ f : JsFile, (ingestOne true f = none ↔ f.blob.raster = none)) := by
  refine ⟨?_, ?_, ?_, ?_, ?_⟩
  · rw [handleFilesAccepted, loadLoop_progress]
    simp
  · rw [handleFilesAccepted, loadLoop_newImages]
    simp
  · intro f hheic img himg
    cases hr : f.blob.raster with
    | none =>
        rw [ingestOne] at himg
        simp [hheic, heic2any, hr] at himg
    | some r =>
        rw [ingestOne] at himg
        simp only [hheic, Bool.and_self, if_pos, heic2any, hr, Option.some_bind,
          Option.map_some', Option.some.injEq, Bool.and_true, if_true] at himg
        subst himg
        exact ⟨rfl, rfl, rfl⟩
  · intro f hheic img himg
    cases hr : f.blob.raster with
    | none =>
        rw [ingestOne] at himg
        simp [hheic, hr] at himg
    | some r =>
        rw [ingestOne] at himg
        simp only [hheic, Bool.false_and, if_neg, Option.some_bind, hr,
          Option.map_some', Option.some.injEq, Bool.false_eq_true,
          if_false] at himg
        subst himg
        rfl
  · intro f
    cases hl : endsWithHeic f.name <;>
      cases hr : f.blob.raster <;>
        simp [ingestOne, hl, hr, heic2any]

/-- C8, witness: a batch of a decodable HEIC (upper-case name), a plain JPEG
and an unparseable HEIC — the HEIC is converted to image/jpeg at quality
0.9, the JPEG passes through unchanged, the broken item alone is dropped,
and progress reaches 3. -/
theorem claim8_witness :
    (handleFilesAccepted true [sampleHeicFile "photo.HEIC", sampleJpegFile "b.jpg" 1024,
       brokenHeicFile "c.heic"]).progress = 3 ∧
    (∃ img : UploadedImage, ingestOne true (sampleHeicFile "photo.HEIC") = some img ∧
       img.processedBlob.mime = "image/jpeg" ∧
       img.processedBlob.encodeQuality = some (9 / 10)) ∧
    (∃ img : UploadedImage, ingestOne true (sampleJpegFile "b.jpg" 1024) = some img ∧
       img.processedBlob = (sampleJpegFile "b.jpg" 1024).blob) ∧
    ingestOne true (brokenHeicFile "c.heic") = none := by
  have H := claim8_heic_normalization
    [sampleHeicFile "photo.HEIC", sampleJpegFile "b.jpg" 1024, brokenHeicFile "c.heic"]
  refine ⟨H.1, ?_, ?_, (H.2.2.2.2 (brokenHeicFile "c.heic")).mpr rfl⟩
  · cases himg : ingestOne true (sampleHeicFile "photo.HEIC") with
    | none =>
        have := (H.2.2.2.2 (sampleHeicFile "photo.HEIC")).mp himg
        exact absurd this (by decide)
    | some img =>
        have hprops := H.2.2.1 (sampleHeicFile "photo.HEIC") (by decide) img himg
        exact ⟨img, rfl, hprops.1, hprops.2.1⟩
  · cases himg : ingestOne true (sampleJpegFile "b.jpg" 1024) with
    | none =>
        have := (H.2.2.2.2 (sampleJpegFile "b.jpg" 1024)).mp himg
        exact absurd this (by decide)
    | some img =>
        have hprops := H.2.2.2.1 (sampleJpegFile "b.jpg" 1024) (by decide) img himg
        exact ⟨img, rfl, hprops⟩

/-! ## Claim C6 -/

theorem claim6_helper_currentErrors_nil (files : List JsFile)
    (hrej : (dropzoneSplit files).2 = []) (hlen : files.length ≤ 50) :
    currentErrorsOf (dropzoneSplit files).1 (dropzoneSplit files).2 = []
      ∧ (dropzoneSplit files).1 = files := by
  have hfilter : files.filter (fun f => !(rejectionErrorsFor f).isEmpty) = [] := by
    have := hrej
    rw [dropzoneSplit] at this
    exact List.map_eq_nil_iff.mp this
  have hall : ∀ f ∈ files, (rejectionErrorsFor f).isEmpty = true := by
    intro f hf
    have := List.filter_eq_nil_iff.mp hfilter f hf
    simpa using this
  have hacc : (dropzoneSplit files).1 = files := by
    rw [dropzoneSplit]
    exact List.filter_eq_self.mpr hall
  refine ⟨?_, hacc⟩
  rw [currentErrorsOf, hrej, hacc]
  simp [hlen, Nat.not_lt.mpr hlen]

theorem claim6_helper_filter_not_length {α : Type} (p : α → Bool) (l : List α) :
    (l.filter p).length + (l.filter (fun a => !p a)).length = l.length := by
  induction l with
  | nil => rfl
  | cons a l ih =>
      cases hp : p a <;> simp [List.filter_cons, hp] <;> omega

theorem claim6_helper_split_length (files : List JsFile) :
    (dropzoneSplit files).1.length + (dropzoneSplit files).2.length
      = files.length := by
  rw [dropzoneSplit]
  simp only [List.length_map]
  exact claim6_helper_filter_not_length _ files

theorem claim6_helper_mem_errors (files : List JsFile)
    (msg : String)
    (hmem : msg ∈ currentErrorsOf (dropzoneSplit files).1 (dropzoneSplit files).2) :
    msg ∈ (handleDrop files).errors := by
  have hnonnil :
      ¬(currentErrorsOf (dropzoneSplit files).1 (dropzoneSplit files).2).isEmpty = true := by
    have hne := List.ne_nil_of_mem hmem
    cases hcase : currentErrorsOf (dropzoneSplit files).1 (dropzoneSplit files).2 with
    | nil => exact absurd hcase hne
    | cons a l => simp
  rw [handleDrop, onDrop, if_neg hnonnil]
  exact hmem

theorem claim6_helper_msg_of_rejection (files : List JsFile) (f : JsFile)
    (hf : f ∈ files) (err : FileError) (herr : err ∈ rejectionErrorsFor f)
    (msg : String) (hmsg : rejectionMessage f.name err = some msg) :
    msg ∈ (handleDrop files).errors := by
  have hnotok : (rejectionErrorsFor f).isEmpty = false := by
    have hne := List.ne_nil_of_mem herr
    cases hcase : rejectionErrorsFor f with
    | nil => exact absurd hcase hne
    | cons a l => rfl
  have hfrej : f ∈ files.filter (fun g => !(rejectionErrorsFor g).isEmpty) :=
    List.mem_filter.mpr ⟨hf, by rw [hnotok]; rfl⟩
  have hrejmem : ({ file := f, errors := rejectionErrorsFor f } : FileRejection)
      ∈ (dropzoneSplit files).2 := by
    rw [dropzoneSplit]
    exact List.mem_map_of_mem _ hfrej
  have hinner : msg ∈ (rejectionErrorsFor f).filterMap (rejectionMessage f.name) :=
    List.mem_filterMap.mpr ⟨err, herr, hmsg⟩
  refine claim6_helper_mem_errors files msg ?_
  rw [currentErrorsOf]
  refine List.mem_append_right _ (List.mem_flatten.mpr ⟨_, ?_, hinner⟩)
  exact List.mem_map_of_mem _ hrejmem

/-- C6, amended: at intake, every file over 10 MB contributes a user-visible
size-error message, every file matching no accepted type an invalid-type
message, and a batch of more than 50 files the batch-cap message (no
exception is modelled anywhere); but contrary to the claim as stated, any
error blocks the *whole* drop — no file of that batch, valid files included,
is passed on for ingestion; only a drop with no rejected file and at most 50
files forwards its files (all of them). -/
theorem claim6_intake (files : List JsFile) :
    (∀ f ∈ files, MAX_FILE_SIZE < f.size →
       ("ファイルサイズが大きすぎます: " ++ f.name ++ " (10MBまで)")
         ∈ (handleDrop files).errors) ∧
    (∀ f ∈ files, dropzoneAccepts f = false →
       ("対応していないファイル形式です: " ++ f.name) ∈ (handleDrop files).errors) ∧
    (50 < files.length →
       "一度にアップロードできるファイルは50枚までです。" ∈ (handleDrop files).errors) ∧
    ((handleDrop files).errors ≠ [] → (handleDrop files).accepted = []) ∧
    ((dropzoneSplit files).2 = [] → files.length ≤ 50 →
       (handleDrop files).accepted = files ∧ (handleDrop files).errors = []) := by
  refine ⟨?_, ?_, ?_, ?_, ?_⟩
  · intro f hf hsize
    refine claim6_helper_msg_of_rejection files f hf ⟨"file-too-large"⟩ ?_ _ (by simp [rejectionMessage])
    rw [rejectionErrorsFor, if_pos hsize]
    exact List.mem_append_left _ (List.mem_singleton_self _)
  · intro f hf htype
    refine claim6_helper_msg_of_rejection files f hf ⟨"file-invalid-type"⟩ ?_ _
      (by simp [rejectionMessage])
    rw [rejectionErrorsFor]
    refine List.mem_append_right _ ?_
    rw [if_neg (by rw [htype]; exact Bool.false_ne_true)]
    exact List.mem_singleton_self _
  · intro hcap
    refine claim6_helper_mem_errors files _ ?_
    rw [currentErrorsOf, if_pos (by rw [claim6_helper_split_length]; exact hcap)]
    exact List.mem_append_left _ (List.mem_singleton_self _)
  · intro hne
    by_cases hemp :
        (currentErrorsOf (dropzoneSplit files).1 (dropzoneSplit files).2).isEmpty = true
    · exfalso
      rw [handleDrop, onDrop, if_pos hemp] at hne
      exact hne rfl
    · rw [handleDrop, onDrop, if_neg hemp]
  · intro hrej hlen
    obtain ⟨hcur, hacc⟩ := claim6_helper_currentErrors_nil files hrej hlen
    have hemp :
        (currentErrorsOf (dropzoneSplit files).1 (dropzoneSplit files).2).isEmpty = true := by
      rw [hcur]
      rfl
    rw [handleDrop, onDrop, if_pos hemp]
    exact ⟨hacc, rfl⟩

/-- C6, counterexample to the claim as stated: dropping a valid 1 KB JPEG
together with an 11 MB JPEG accepts nothing — the oversize rejection blocks
the valid file too, which by itself would have been accepted. -/
theorem claim6_counterexample :
    (handleDrop [sampleJpegFile "ok.jpg" 1024,
       sampleJpegFile "big.jpg" (11 * 1024 * 1024)]).accepted = [] ∧
    (handleDrop [sampleJpegFile "ok.jpg" 1024,
       sampleJpegFile "big.jpg" (11 * 1024 * 1024)]).errors ≠ [] ∧
    (handleDrop [sampleJpegFile "ok.jpg" 1024]).accepted
      = [sampleJpegFile "ok.jpg" 1024] := by
  decide

/-- C6, witness: the amended theorem applied to a single oversize file (its
size message appears and nothing is accepted), to an unaccepted-type file
(its type message appears), to a 51-file batch (the cap message appears and
nothing is accepted), and to a clean two-file batch (both files forwarded). -/
theorem claim6_witness :
    ("ファイルサイズが大きすぎます: "
        ++ (sampleJpegFile "big.jpg" (11 * 1024 * 1024)).name ++ " (10MBまで)")
      ∈ (handleDrop [sampleJpegFile "big.jpg" (11 * 1024 * 1024)]).errors ∧
    (handleDrop [sampleJpegFile "big.jpg" (11 * 1024 * 1024)]).accepted = [] ∧
    ("対応していないファイル形式です: " ++ (sampleTextFile "doc.txt").name)
      ∈ (handleDrop [sampleTextFile "doc.txt"]).errors ∧
    "一度にアップロードできるファイルは50枚までです。"
      ∈ (handleDrop (List.replicate 51 (sampleJpegFile "a.jpg" 100))).errors ∧
    (handleDrop (List.replicate 51 (sampleJpegFile "a.jpg" 100))).accepted = [] ∧
    (handleDrop [sampleJpegFile "a.jpg" 100, sampleJpegFile "b.jpg" 200]).accepted
      = [sampleJpegFile "a.jpg" 100, sampleJpegFile "b.jpg" 200] := by
  have H1 := claim6_intake [sampleJpegFile "big.jpg" (11 * 1024 * 1024)]
  have H2 := claim6_intake [sampleJpegFile "a.jpg" 100, sampleJpegFile "b.jpg" 200]
  have H3 := claim6_intake [sampleTextFile "doc.txt"]
  have H4 := claim6_intake (List.replicate 51 (sampleJpegFile "a.jpg" 100))
  have hcap : "一度にアップロードできるファイルは50枚までです。"
      ∈ (handleDrop (List.replicate 51 (sampleJpegFile "a.jpg" 100))).errors :=
    H4.2.2.1 (by decide)
  refine ⟨?_, ?_, ?_, hcap, ?_, ?_⟩
  · exact H1.1 (sampleJpegFile "big.jpg" (11 * 1024 * 1024)) (by decide) (by decide)
  · refine H1.2.2.2.1 ?_
    have hmem := H1.1 (sampleJpegFile "big.jpg" (11 * 1024 * 1024)) (by decide) (by decide)
    exact List.ne_nil_of_mem hmem
  · exact H3.2.1 _ (by decide) (by decide)
  · exact H4.2.2.2.1 (List.ne_nil_of_mem hcap)
  · exact (H2.2.2.2.2 (by decide) (by decide)).1

end BulkRenameResizer
